import Mathlib

/-
Shallow embedding of the `uri_routes` crate.

Source files embedded here:
  * `src/resources/lib.rs` — resource nodes (`ApiResource`), argument
    requirements, validators, parent/child linking and path composition;
  * `src/lib.rs` — the flat route builder (`ApiRouteBuilder`) with weighted
    path entries, parameters and scheme handling.

Modelling conventions:
  * Rust `f32` weights are modelled by `ℚ`.  Every weight the program
    manipulates (`0.0`, clamp bound `0.1`, `f32::MAX`, caller-supplied finite
    weights) is a finite float, and on finite floats `f32` comparison and
    `clamp` agree exactly with the rational order, so the embedding uses the
    exact rational values of the relevant `f32` constants.
  * Rust functions taking `&mut` arguments are modelled by returning the
    (possibly updated) argument value next to the function result.
  * A Rust `panic!`/`unwrap` on `None` is modelled by the explicit
    `PanicOr.panicked` outcome.
  * Rust `str::replace(\x22//\x22, \x22/\x22)` (one left-to-right pass over the string,
    non-overlapping matches, continuing after each replacement) is modelled
    by `collapseSlashes`.
  * `Vec::sort` is Rust's stable sort driven by `PartialOrd::lt`; for
    `ApiRoutePath` the hand-written `PartialOrd` compares only the `weight`
    field.  Stable sorts for a fixed total preorder all produce the same
    list, so `List.insertionSort` by `weightLE` (which is stable) is an exact
    model of `self.sub_paths.sort()`.
-/

/-- `ArgRequiredBy` from `src/resources/lib.rs` (lines 10-16). -/
inductive ArgRequiredBy : Type where
  | Child
  | Me
  | NoOne
  | Parent
deriving DecidableEq

/-- `ArgRequiredBy::is_child` (resources lines 19-21). -/
def ArgRequiredBy.is_child : ArgRequiredBy → Bool
  | .Child => true
  | _ => false

/-- `ArgRequiredBy::is_me` (resources lines 23-25). -/
def ArgRequiredBy.is_me : ArgRequiredBy → Bool
  | .Me => true
  | _ => false

/-- `ArgRequiredBy::is_noone` (resources lines 27-29). -/
def ArgRequiredBy.is_noone : ArgRequiredBy → Bool
  | .NoOne => true
  | _ => false

/-- `ArgRequiredBy::is_parent` (resources lines 31-33). -/
def ArgRequiredBy.is_parent : ArgRequiredBy → Bool
  | .Parent => true
  | _ => false

/-- `ArgError` from `src/resources/lib.rs` (lines 36-42). -/
inductive ArgError : Type where
  | Missing : String → ArgError
  | NotValid : String → List String → ArgError
deriving DecidableEq

/-- `ResourceError` from `src/resources/lib.rs` (lines 44-48). -/
inductive ResourceError : Type where
  | AlreadySet : String → String → ResourceError
deriving DecidableEq

/-- Outcome of running a piece of Rust code that may `panic!`:
either the code panicked, or it produced a value. -/
inductive PanicOr (α : Type) : Type where
  | panicked : PanicOr α
  | value : α → PanicOr α

/-- `ApiResource` from `src/resources/lib.rs` (lines 55-64): a node with a
name, optional argument, argument requirement, validator list, optional
boxed child and parent, and an `f32` weight (modelled by `ℚ`).  Validators
(`fn(&T) -> anyhow::Result<()>`) are modelled as `T → Except String Unit`,
the `String` being the stringified `anyhow` error. -/
inductive ApiResource (T : Type) : Type where
  | mk : String → Option T → ArgRequiredBy → List (T → Except String Unit) →
         Option (ApiResource T) → Option (ApiResource T) → ℚ → ApiResource T

variable {T : Type}

/-- Field `name` of `ApiResource`; `CoreResource::name` (resources lines
260-262) returns a fresh owned copy of it. -/
def ApiResource.name : ApiResource T → String
  | .mk n _ _ _ _ _ _ => n

/-- Field `arg` of `ApiResource`. -/
def ApiResource.arg : ApiResource T → Option T
  | .mk _ a _ _ _ _ _ => a

/-- Field `arg_required_by` of `ApiResource`; also `ArgedResource::required_by`
(resources lines 233-235). -/
def ApiResource.required_by : ApiResource T → ArgRequiredBy
  | .mk _ _ rq _ _ _ _ => rq

/-- Field `arg_validators` of `ApiResource`. -/
def ApiResource.arg_validators : ApiResource T → List (T → Except String Unit)
  | .mk _ _ _ v _ _ _ => v

/-- Field `child` of `ApiResource`; `LinkedResource::child` (resources lines
369-371) is `self.child.as_deref()`. -/
def ApiResource.child : ApiResource T → Option (ApiResource T)
  | .mk _ _ _ _ ch _ _ => ch

/-- Field `parent` of `ApiResource`; `LinkedResource::parent` (resources
lines 373-375). -/
def ApiResource.parent : ApiResource T → Option (ApiResource T)
  | .mk _ _ _ _ _ p _ => p

/-- Field `weight` of `ApiResource`. -/
def ApiResource.weight : ApiResource T → ℚ
  | .mk _ _ _ _ _ _ w => w

/-- `ApiResource::new` (resources lines 74-84). -/
def ApiResource.new (name : String) : ApiResource T :=
  .mk name none .NoOne [] none none 0

/-- `LinkedResource::is_child` (resources lines 377-379):
`self.parent.is_some()`. -/
def ApiResource.is_child (r : ApiResource T) : Bool :=
  r.parent.isSome

/-- `LinkedResource::is_root` (resources lines 381-383):
`self.parent.is_none()`. -/
def ApiResource.is_root (r : ApiResource T) : Bool :=
  r.parent.isNone

/-- `LinkedResource::is_tail` (resources lines 385-387):
`self.child.is_none()`. -/
def ApiResource.is_tail (r : ApiResource T) : Bool :=
  r.child.isNone

/-- The Rust field assignment `node.child = Some(Box::new(c))`. -/
def ApiResource.setChild : ApiResource T → ApiResource T → ApiResource T
  | .mk n a rq v _ p w, c => .mk n a rq v (some c) p w

/-- The Rust field assignment `node.parent = Some(Box::new(p))`
(resources line 408, `self.parent = Box::new(parent.clone()).into()`). -/
def ApiResource.setParent : ApiResource T → ApiResource T → ApiResource T
  | .mk n a rq v ch _ w, p => .mk n a rq v ch (some p) w

/-- `LinkedResource::with_parent` (resources lines 405-413).  Rust signature
`fn with_parent(&mut self, parent: &mut ApiResource) -> Result<Box<Self>>`;
`parent` is only cloned, never written, so the model returns the pair
(updated `self`, result).  In the `None` arm the code stores a clone of
`parent` into `self.parent` in place and returns a clone of the updated
`self`; in the `Some` arm it fails with `AlreadySet(self.name(), "parent")`
leaving `self` untouched. -/
def ApiResource.with_parent (self q : ApiResource T) :
    ApiResource T × Except ResourceError (ApiResource T) :=
  match self.parent with
  | none =>
      let self2 := self.setParent q
      (self2, .ok self2)
  | some _ => (self, .error (.AlreadySet self.name "parent"))

/-- `LinkedResource::with_child` (resources lines 389-403).  Rust signature
`fn with_child(&mut self, child: &mut ApiResource) -> Result<Box<Self>>`;
the code never writes through `self` (it works on `let mut new =
self.clone()`), but it does call `child.with_parent(new.borrow_mut())`,
which writes `child.parent` in place.  The model therefore returns the pair
(updated `child`, result). -/
def ApiResource.with_child (self c : ApiResource T) :
    ApiResource T × Except ResourceError (ApiResource T) :=
  match self.child with
  | none =>
      let new := self
      match c.with_parent new with
      | (c2, .ok chld) => (c2, .ok (new.setChild chld))
      | (c2, .error e) => (c2, .error e)
  | some _ => (c, .error (.AlreadySet self.name "child"))

/-- The validator-error collection of the `compose_this` closure (resources
lines 168-173): run every validator on the argument, keep the stringified
failures in order. -/
def validatorErrors (vs : List (T → Except String Unit)) (a : T) : List String :=
  (vs.map fun f => f a).filterMap fun res =>
    match res with
    | .error s => some s
    | .ok _ => none

/-- The `compose_this` closure inside `as_path_component` (resources lines
167-184).  It maps every validator over `self.arg.as_ref().unwrap()` — an
`unwrap` that panics when the argument is absent and at least one validator
exists (with no validators the `map` never runs, so nothing is unwrapped).
Collected error strings, if any, yield `NotValid(self.name(), errors)`;
otherwise the segment is `format!("{}/{}", name, arg-or-empty)`. -/
def ApiResource.composeThis [ToString T] (r : ApiResource T) :
    PanicOr (Except ArgError String) :=
  match r.arg with
  | some a =>
      let errors := validatorErrors r.arg_validators a
      if errors = [] then .value (.ok (r.name ++ "/" ++ toString a))
      else .value (.error (.NotValid r.name errors))
  | none =>
      match r.arg_validators with
      | [] => .value (.ok (r.name ++ "/"))
      | _ :: _ => .panicked

/-- `PathComponent::as_path_component` for `ApiResource` (resources lines
162-195): argument present or requirement `NoOne` → compose; else
requirement `Parent` with a parent present → `Missing(parent.name())`; else
requirement `Child` with a child present → `Missing(child.name())`; else
fall through to compose. -/
def ApiResource.asPathComponent [ToString T] (r : ApiResource T) :
    PanicOr (Except ArgError String) :=
  if r.arg.isSome || r.required_by.is_noone then r.composeThis
  else
    match r.required_by, r.parent, r.child with
    | .Parent, some pn, _ => .value (.error (.Missing pn.name))
    | .Child, _, some cn => .value (.error (.Missing cn.name))
    | _, _, _ => r.composeThis

/-- One pass of Rust `str::replace("//", "/")` over the character list:
scan left to right, replace each non-overlapping `//` by `/`, continuing
after the replacement. -/
def collapseAux : List Char → List Char
  | '/' :: '/' :: rest => '/' :: collapseAux rest
  | c :: rest => c :: collapseAux rest
  | [] => []

/-- `s.replace("//", "/")` as used in `compose` (resources line 210) and
`parse_path` (lib line 102). -/
def collapseSlashes (s : String) : String :=
  ⟨collapseAux s.data⟩

/-- One iteration of the component-collecting loop of
`PathComponent::compose` (resources lines 201-209): `res` is the current
node's `as_path_component` outcome and `rest` the outcome of the rest of
the walk; an error at the current node returns before the rest of the walk
happens, matching the early `return e`. -/
def composeSegsStep (res : PanicOr (Except ArgError String))
    (rest : PanicOr (Except ArgError (List String))) :
    PanicOr (Except ArgError (List String)) :=
  match res with
  | .panicked => .panicked
  | .value (.error e) => .value (.error e)
  | .value (.ok s) =>
    match rest with
    | .panicked => .panicked
    | .value (.error e) => .value (.error e)
    | .value (.ok segs) => .value (.ok (s :: segs))

/-- The component-collecting loop of `PathComponent::compose` (resources
lines 197-211): walk forward through `child` links, pushing each
`as_path_component` string, returning the first error unchanged. -/
def ApiResource.composeSegs [ToString T] : ApiResource T → PanicOr (Except ArgError (List String))
  | .mk n a rq v none p w =>
    composeSegsStep (ApiResource.asPathComponent (.mk n a rq v none p w)) (.value (.ok []))
  | .mk n a rq v (some c) p w =>
    composeSegsStep (ApiResource.asPathComponent (.mk n a rq v (some c) p w))
      (ApiResource.composeSegs c)

/-- `PathComponent::compose` (resources lines 197-211): on success,
`components.join("/").replace("//", "/")`. -/
def ApiResource.compose [ToString T] (r : ApiResource T) :
    PanicOr (Except ArgError String) :=
  match r.composeSegs with
  | .panicked => .panicked
  | .value (.error e) => .value (.error e)
  | .value (.ok segs) => .value (.ok (collapseSlashes (String.intercalate "/" segs)))

/-- One step of the specification-side walk of claim C6: `res` is the
current node's `as_path_component` outcome and `rest` the first failure of
the remaining nodes. -/
def firstFailureStep (res : PanicOr (Except ArgError String)) (rest : Option ArgError) :
    Option ArgError :=
  match res with
  | .value (.error e) => some e
  | .panicked => none
  | .value (.ok _) => rest

/-- Specification-side notion used by claim C6: the error of the first node,
walking forward through `child` links, whose `as_path_component` fails
(`none` when every visited node succeeds, or when a node panics before any
failure is produced). -/
def ApiResource.firstFailure [ToString T] : ApiResource T → Option ArgError
  | .mk n a rq v none p w =>
    firstFailureStep (ApiResource.asPathComponent (.mk n a rq v none p w)) none
  | .mk n a rq v (some c) p w =>
    firstFailureStep (ApiResource.asPathComponent (.mk n a rq v (some c) p w))
      (ApiResource.firstFailure c)

/-- The chain A→B→C of claim C5, built exactly as the crate's doctests build
it (resources lines 146-157): `child0.with_child(&mut child1)` on fresh
nodes, then `new(parent).with_child(&mut child0)`. -/
def chain3 (na nb nc : String) : Option (ApiResource String) :=
  match ((ApiResource.new nb).with_child (ApiResource.new nc)).2 with
  | .error _ => none
  | .ok bc =>
    match ((ApiResource.new na).with_child bc).2 with
    | .error _ => none
    | .ok abc => some abc

/-- `ApiRoutePath` from `src/lib.rs` (lines 26-30): a path text plus an
`OrderedFloat<f32>` sorting weight (modelled by `ℚ`). -/
structure ApiRoutePath : Type where
  path : String
  weight : ℚ
deriving DecidableEq

/-- The order by which `self.sub_paths.sort()` sorts (lib line 81):
`Vec::sort` drives Rust's stable sort with `PartialOrd::lt`, and the
hand-written `PartialOrd for ApiRoutePath` (lib lines 50-54) compares only
the `weight` field. -/
def weightLE (a b : ApiRoutePath) : Prop :=
  a.weight ≤ b.weight

instance : DecidableRel weightLE :=
  fun a b => inferInstanceAs (Decidable (a.weight ≤ b.weight))

instance : IsTotal ApiRoutePath weightLE :=
  ⟨fun a b => le_total a.weight b.weight⟩

instance : IsTrans ApiRoutePath weightLE :=
  ⟨fun _ _ _ hab hbc => le_trans hab hbc⟩

/-- The exact rational value of the `f32` literal `0.1`, the lower clamp
bound in `insert_path` (lib line 78). -/
def f32TENTH : ℚ := Rat.mk' 13421773 134217728 (by norm_num) (by norm_num)

/-- The exact rational value of `f32::MAX`, the default weight and upper
clamp bound in `insert_path` (lib lines 76-78). -/
def f32MAX : ℚ := 340282346638528859811704183484516925440

/-- `f32::clamp(self, 0.1, f32::MAX)` on finite weights (lib line 78):
below the minimum → minimum, above the maximum → maximum, else unchanged. -/
def clampWeight (w : ℚ) : ℚ :=
  if w < f32TENTH then f32TENTH
  else if w > f32MAX then f32MAX
  else w

/-- `ApiRouteBuilder` from `src/lib.rs` (lines 62-67).  `with_param` values
arrive already stringified (`T: ToString`), so parameters are plain
strings. -/
structure ApiRouteBuilder : Type where
  hostname : String
  parameters : List String
  scheme : Option String
  sub_paths : List ApiRoutePath
deriving DecidableEq

/-- `ApiRouteBuilder::insert_param` (lib lines 70-73):
push `format!("{name}={value}")`. -/
def ApiRouteBuilder.insert_param (b : ApiRouteBuilder) (n v : String) : ApiRouteBuilder :=
  { b with parameters := b.parameters ++ [n ++ "=" ++ v] }

/-- `ApiRouteBuilder::insert_path` (lib lines 75-83): resolve the weight
(`unwrap_or(f32::MAX)` then clamp into `[0.1, f32::MAX]`), push the new
entry, and re-run the stable weight sort. -/
def ApiRouteBuilder.insert_path (b : ApiRouteBuilder) (p : String) (w : Option ℚ) :
    ApiRouteBuilder :=
  let wt := clampWeight (w.getD f32MAX)
  { b with sub_paths := List.insertionSort weightLE (b.sub_paths ++ [⟨p, wt⟩]) }

/-- `ApiRouteBuilder::insert_scheme` (lib lines 85-88). -/
def ApiRouteBuilder.insert_scheme (b : ApiRouteBuilder) (s : Option String) : ApiRouteBuilder :=
  { b with scheme := s }

/-- `ApiRouteBuilder::parse_params` (lib lines 90-92): join with `&`. -/
def ApiRouteBuilder.parse_params (b : ApiRouteBuilder) : String :=
  String.intercalate "&" b.parameters

/-- `ApiRouteBuilder::parse_path` (lib lines 94-103): retain entries whose
path text is non-empty (`PartialEq<str>` compares the text only), map to
their text, join with `/`, and run one pass of `replace("//", "/")`. -/
def ApiRouteBuilder.parse_path (b : ApiRouteBuilder) : String :=
  collapseSlashes
    (String.intercalate "/" ((b.sub_paths.filter fun p => p.path ≠ "").map fun p => p.path))

/-- `ApiRouteBuilder::parse_scheme` (lib lines 105-107). -/
def ApiRouteBuilder.parse_scheme (b : ApiRouteBuilder) : String :=
  b.scheme.getD "https"

/-- `RouteBuilder::new` for `ApiRouteBuilder` (lib lines 111-118): no
parameters, no scheme override, and `sub_paths` seeded with
`ApiRoutePath::new("/", 0.0)`. -/
def ApiRouteBuilder.new (host : String) : ApiRouteBuilder :=
  { hostname := host, parameters := [], scheme := none, sub_paths := [⟨"/", 0⟩] }

/-- `RouteBuilder::build` for `ApiRouteBuilder` (lib lines 127-138) up to the
external `http::uri::Builder` boundary (out of scope per the spec): the
scheme, authority and `format!("{path}?{params}")` strings handed to it. -/
def ApiRouteBuilder.build (b : ApiRouteBuilder) : String × String × String :=
  (b.parse_scheme, b.hostname, b.parse_path ++ "?" ++ b.parse_params)

/-- `RouteBuilder::with_param` (lib lines 149-151), value pre-stringified. -/
def ApiRouteBuilder.with_param (b : ApiRouteBuilder) (n v : String) : ApiRouteBuilder :=
  b.insert_param n v

/-- `RouteBuilder::with_path` (lib lines 163-165): insert with no explicit
weight. -/
def ApiRouteBuilder.with_path (b : ApiRouteBuilder) (p : String) : ApiRouteBuilder :=
  b.insert_path p none

/-- `RouteBuilder::with_path_weight` (lib lines 178-180). -/
def ApiRouteBuilder.with_path_weight (b : ApiRouteBuilder) (p : String) (w : ℚ) : ApiRouteBuilder :=
  b.insert_path p (some w)

/-- `RouteBuilder::with_scheme` (lib lines 192-194). -/
def ApiRouteBuilder.with_scheme (b : ApiRouteBuilder) (s : String) : ApiRouteBuilder :=
  b.insert_scheme (some s)

/-- Builders reachable from `new` by any chain of the public builder calls. -/
inductive Reachable : ApiRouteBuilder → Prop where
  | new (host : String) : Reachable (ApiRouteBuilder.new host)
  | path (b : ApiRouteBuilder) (p : String) : Reachable b → Reachable (b.with_path p)
  | pathWeight (b : ApiRouteBuilder) (p : String) (w : ℚ) :
      Reachable b → Reachable (b.with_path_weight p w)
  | param (b : ApiRouteBuilder) (n v : String) : Reachable b → Reachable (b.with_param n v)
  | scheme (b : ApiRouteBuilder) (s : String) : Reachable b → Reachable (b.with_scheme s)

theorem clamp_ge (w : ℚ) : f32TENTH ≤ clampWeight w := by
  unfold clampWeight
  split_ifs with h1 h2
  · exact le_rfl
  · decide
  · exact le_of_not_lt h1

theorem clamp_le (w : ℚ) : clampWeight w ≤ f32MAX := by
  unfold clampWeight
  split_ifs with h1 h2
  · decide
  · exact le_rfl
  · exact not_lt.mp h2

theorem clamp_lt_max (w : ℚ) (h : w < f32MAX) : clampWeight w < f32MAX := by
  unfold clampWeight
  split_ifs with h1 h2
  · decide
  · exact absurd (lt_trans h2 h) (lt_irrefl _)
  · exact h

theorem clamp_max_eq : clampWeight f32MAX = f32MAX := by
  unfold clampWeight
  split_ifs with h1 h2
  · exact absurd h1 (by decide)
  · rfl
  · rfl

theorem reachable_sorted (b : ApiRouteBuilder) (h : Reachable b) :
    List.Sorted weightLE b.sub_paths := by
  induction h with
  | new host => exact List.sorted_singleton _
  | path b p hb ih => exact List.sorted_insertionSort weightLE _
  | pathWeight b p w hb ih => exact List.sorted_insertionSort weightLE _
  | param b n v hb ih => exact ih
  | scheme b s hb ih => exact ih

theorem reachable_mem (b : ApiRouteBuilder) (h : Reachable b) :
    ∀ q ∈ b.sub_paths, q = ⟨"/", 0⟩ ∨ f32TENTH ≤ q.weight := by
  induction h with
  | new host =>
      intro q hq
      simp [ApiRouteBuilder.new] at hq
      exact Or.inl hq
  | path b p hb ih =>
      intro q hq
      have hq2 : q ∈ b.sub_paths ++ [⟨p, clampWeight (Option.getD none f32MAX)⟩] :=
        (List.perm_insertionSort weightLE _).mem_iff.mp hq
      rcases List.mem_append.mp hq2 with h1 | h1
      · exact ih q h1
      · right
        simp at h1
        rw [h1]
        exact clamp_ge _
  | pathWeight b p w hb ih =>
      intro q hq
      have hq2 : q ∈ b.sub_paths ++ [⟨p, clampWeight (Option.getD (some w) f32MAX)⟩] :=
        (List.perm_insertionSort weightLE _).mem_iff.mp hq
      rcases List.mem_append.mp hq2 with h1 | h1
      · exact ih q h1
      · right
        simp at h1
        rw [h1]
        exact clamp_ge _
  | param b n v hb ih => exact ih
  | scheme b s hb ih => exact ih

theorem reachable_root_mem (b : ApiRouteBuilder) (h : Reachable b) :
    (⟨"/", 0⟩ : ApiRoutePath) ∈ b.sub_paths := by
  induction h with
  | new host => simp [ApiRouteBuilder.new]
  | path b p hb ih =>
      exact (List.perm_insertionSort weightLE _).mem_iff.mpr (List.mem_append_left _ ih)
  | pathWeight b p w hb ih =>
      exact (List.perm_insertionSort weightLE _).mem_iff.mpr (List.mem_append_left _ ih)
  | param b n v hb ih => exact ih
  | scheme b s hb ih => exact ih

theorem reachable_head (b : ApiRouteBuilder) (h : Reachable b) :
    b.sub_paths.head? = some ⟨"/", 0⟩ := by
  have hs := reachable_sorted b h
  have hm := reachable_mem b h
  have hr := reachable_root_mem b h
  cases hl : b.sub_paths with
  | nil => rw [hl] at hr; simp at hr
  | cons x t =>
      rw [hl] at hs hm hr
      rcases List.mem_cons.mp hr with h1 | h1
      · rw [← h1]; rfl
      · rcases hm x (List.mem_cons_self x t) with hx | hx
        · rw [hx]; rfl
        · have hle : weightLE x ⟨"/", 0⟩ := List.rel_of_sorted_cons hs _ h1
          exact absurd (le_trans hx hle) (by decide)

theorem composeSegs_spec : ∀ (r : ApiResource String),
    (∀ e, r.firstFailure = some e → r.composeSegs = .value (.error e)) ∧
    (∀ l, r.composeSegs = .value (.ok l) → r.firstFailure = none)
  | .mk n a rq v none p w => by
      constructor
      · intro e he
        have he2 : firstFailureStep (ApiResource.asPathComponent (.mk n a rq v none p w)) none
            = some e := he
        show composeSegsStep (ApiResource.asPathComponent (.mk n a rq v none p w))
            (.value (.ok [])) = .value (.error e)
        cases hap : ApiResource.asPathComponent (ApiResource.mk n a rq v none p w) with
        | panicked => rw [hap] at he2; simp [firstFailureStep] at he2
        | value res =>
          cases res with
          | error e0 =>
              rw [hap] at he2
              simp [firstFailureStep] at he2
              rw [he2]
              rfl
          | ok s => rw [hap] at he2; simp [firstFailureStep] at he2
      · intro l hl
        have hl2 : composeSegsStep (ApiResource.asPathComponent (.mk n a rq v none p w))
            (.value (.ok [])) = .value (.ok l) := hl
        show firstFailureStep (ApiResource.asPathComponent (.mk n a rq v none p w)) none = none
        cases hap : ApiResource.asPathComponent (ApiResource.mk n a rq v none p w) with
        | panicked => simp [firstFailureStep]
        | value res =>
          cases res with
          | error e0 => rw [hap] at hl2; simp [composeSegsStep] at hl2
          | ok s => simp [firstFailureStep]
  | .mk n a rq v (some c) p w => by
      obtain ⟨ih1, ih2⟩ := composeSegs_spec c
      constructor
      · intro e he
        have he2 : firstFailureStep (ApiResource.asPathComponent (.mk n a rq v (some c) p w))
            (ApiResource.firstFailure c) = some e := he
        show composeSegsStep (ApiResource.asPathComponent (.mk n a rq v (some c) p w))
            (ApiResource.composeSegs c) = .value (.error e)
        cases hap : ApiResource.asPathComponent (ApiResource.mk n a rq v (some c) p w) with
        | panicked => rw [hap] at he2; simp [firstFailureStep] at he2
        | value res =>
          cases res with
          | error e0 =>
              rw [hap] at he2
              simp [firstFailureStep] at he2
              rw [he2]
              rfl
          | ok s =>
              rw [hap] at he2
              simp [firstFailureStep] at he2
              rw [ih1 e he2]
              rfl
      · intro l hl
        have hl2 : composeSegsStep (ApiResource.asPathComponent (.mk n a rq v (some c) p w))
            (ApiResource.composeSegs c) = .value (.ok l) := hl
        show firstFailureStep (ApiResource.asPathComponent (.mk n a rq v (some c) p w))
            (ApiResource.firstFailure c) = none
        cases hap : ApiResource.asPathComponent (ApiResource.mk n a rq v (some c) p w) with
        | panicked => simp [firstFailureStep]
        | value res =>
          cases res with
          | error e0 => rw [hap] at hl2; simp [composeSegsStep] at hl2
          | ok s =>
              rw [hap] at hl2
              simp only [composeSegsStep] at hl2
              simp only [firstFailureStep]
              cases hcs : ApiResource.composeSegs c with
              | panicked => rw [hcs] at hl2; simp at hl2
              | value res2 =>
                cases res2 with
                | error e1 => rw [hcs] at hl2; simp at hl2
                | ok rest => exact ih2 rest hcs

theorem validatorErrors_nil {T : Type} (vs : List (T → Except String Unit)) (a : T)
    (hok : ∀ f ∈ vs, f a = .ok ()) : validatorErrors vs a = [] := by
  unfold validatorErrors
  rw [List.filterMap_eq_nil_iff]
  intro x hx
  rcases List.mem_map.mp hx with ⟨f, hf, hfa⟩
  rw [← hfa, hok f hf]

/-- C1 counterexample: with `A = new "a"` and `B = new "b"` (both links
empty), after `A.with_child(&mut B)` the pre-existing handle to `B` HAS
been retroactively linked: `B.is_child()` is `true` and `B.is_root()` is
`false`, contrary to the claim. -/
theorem C1_claim_false :
    ((ApiResource.new "a" : ApiResource String).with_child (ApiResource.new "b")).1.is_child
      = true ∧
    ((ApiResource.new "a" : ApiResource String).with_child (ApiResource.new "b")).1.is_root
      = false :=
  ⟨rfl, rfl⟩

/-- C1 (amended): for nodes `A`, `B` with neither link set,
`A.with_child(&mut B)` never writes through `A` (the `self` handle keeps
its empty links; only the returned composite value carries the new child
link), but it does retroactively link the external handle to `B`: `B`'s
parent link is set in place to a pre-link copy of `A`, so `B.is_child()`
becomes `true`; the returned composite is `A` with that updated copy of
`B` as its child. -/
theorem C1_attach_by_copy (A B : ApiResource String)
    (hA : A.child = none) (hB : B.parent = none) :
    A.with_child B = (B.setParent A, .ok (A.setChild (B.setParent A))) ∧
    (A.with_child B).1.parent = some A ∧
    (A.with_child B).1.is_child = true := by
  cases A with
  | mk n a rq v ch p w =>
    cases B with
    | mk n2 a2 rq2 v2 ch2 p2 w2 =>
      simp only [ApiResource.child] at hA
      simp only [ApiResource.parent] at hB
      subst hA
      subst hB
      exact ⟨rfl, rfl, rfl⟩

/-- Witness for C1_attach_by_copy at `A = new "a"`, `B = new "b"`. -/
theorem C1_attach_by_copy_witness :
    (ApiResource.new "a" : ApiResource String).with_child (ApiResource.new "b") =
      ((ApiResource.new "b").setParent (ApiResource.new "a"),
        .ok ((ApiResource.new "a").setChild
          ((ApiResource.new "b").setParent (ApiResource.new "a")))) :=
  (C1_attach_by_copy (ApiResource.new "a") (ApiResource.new "b") rfl rfl).1

/-- C3 (code bug): contrary to the claim (and to the spec's validator
rule), when `as_path_component` reaches the composition step with no
argument present and a NON-EMPTY validator list, the code evaluates
`self.arg.as_ref().unwrap()` inside the validator map and panics instead
of returning `"{name}/"`.  With an empty validator list the fall-through
does return `"{name}/"` normally. -/
theorem C3_validator_unwrap_panics :
    ApiResource.asPathComponent
        (ApiResource.mk "r" (none : Option String) .NoOne
          [fun _ => .ok ()] none none 0) = .panicked ∧
    ApiResource.asPathComponent
        (ApiResource.mk "r" (none : Option String) .NoOne [] none none 0) =
      .value (.ok "r/") :=
  ⟨rfl, rfl⟩

/-- C4 counterexample: a node named "user" with requirement `RequiredByMe`,
no argument and no validators does NOT fail with `Missing("user")` — it
falls through to composition and succeeds with `"user/"`. -/
theorem C4_claim_false :
    ApiResource.asPathComponent
        (ApiResource.mk "user" (none : Option String) .Me [] none none 0) =
      .value (.ok "user/") ∧
    ApiResource.asPathComponent
        (ApiResource.mk "user" (none : Option String) .Me [] none none 0) ≠
      .value (.error (.Missing "user")) := by
  constructor
  · rfl
  · intro h
    have h2 : PanicOr.value (Except.ok "user/") =
        (PanicOr.value (.error (.Missing "user")) :
          PanicOr (Except ArgError String)) := h
    injection h2 with h3
    exact Except.noConfusion h3

/-- C4 (amended): with `RequiredByMe`, no argument and no validators,
`as_path_component` falls through and succeeds with `"{name}/"` (no
`Missing(self.name)` error is produced on this path); with an argument
present and every validator accepting it, it succeeds with
`"{name}/{argument}"`. -/
theorem C4_required_by_me (r : ApiResource String) :
    (r.arg = none → r.required_by = .Me → r.arg_validators = [] →
        r.asPathComponent = .value (.ok (r.name ++ "/"))) ∧
    (∀ a, r.arg = some a → (∀ f ∈ r.arg_validators, f a = .ok ()) →
        r.asPathComponent = .value (.ok (r.name ++ "/" ++ a))) := by
  cases r with
  | mk n a0 rq v ch p w =>
    constructor
    · intro ha hreq hv
      simp only [ApiResource.arg] at ha
      simp only [ApiResource.required_by] at hreq
      simp only [ApiResource.arg_validators] at hv
      subst ha
      subst hreq
      subst hv
      rfl
    · intro a ha hok
      simp only [ApiResource.arg] at ha
      subst ha
      simp only [ApiResource.arg_validators] at hok
      have herr := validatorErrors_nil v a hok
      rw [show ApiResource.asPathComponent (ApiResource.mk n (some a) rq v ch p w) =
          (if validatorErrors v a = []
            then PanicOr.value (Except.ok (n ++ "/" ++ toString a))
            else PanicOr.value (Except.error (ArgError.NotValid n (validatorErrors v a))))
          from rfl, herr]
      rfl

/-- Witness for C4_required_by_me: a "user" node with `RequiredByMe` and no
argument composes to "user/", and a "user" node carrying argument "42"
with one accepting validator composes to "user/42". -/
theorem C4_required_by_me_witness :
    ApiResource.asPathComponent
        (ApiResource.mk "user" (none : Option String) .Me [] none none 0) =
      .value (.ok "user/") ∧
    ApiResource.asPathComponent
        (ApiResource.mk "user" (some "42") .Me [fun _ => .ok ()] none none 0) =
      .value (.ok "user/42") :=
  ⟨(C4_required_by_me
      (ApiResource.mk "user" (none : Option String) .Me [] none none 0)).1 rfl rfl rfl,
    (C4_required_by_me
      (ApiResource.mk "user" (some "42") .Me [fun _ => .ok ()] none none 0)).2 "42" rfl
      (by intro f hf; rw [List.mem_singleton.mp hf])⟩

/-- C7: attaching to a node whose link is already populated fails with
`AlreadySet` naming that node and the relation, and neither the receiver
(never written in the error arm) nor the passed relative (returned
unchanged as the first pair component) is modified — the attachment is not
replaced, merged, or silently ignored. -/
theorem C7_already_set (A B : ApiResource String) :
    (∀ c, A.child = some c →
        A.with_child B = (B, .error (.AlreadySet A.name "child"))) ∧
    (∀ p, A.parent = some p →
        A.with_parent B = (A, .error (.AlreadySet A.name "parent"))) := by
  constructor
  · intro c hc
    unfold ApiResource.with_child
    rw [hc]
  · intro p hp
    unfold ApiResource.with_parent
    rw [hp]

/-- Witness for C7_already_set: a node with a child already set refuses a
second child, and a node with a parent already set refuses a second
parent. -/
theorem C7_already_set_witness :
    ((ApiResource.new "a" : ApiResource String).setChild
        (ApiResource.new "c")).with_child (ApiResource.new "b") =
      (ApiResource.new "b", .error (.AlreadySet "a" "child")) ∧
    ((ApiResource.new "a" : ApiResource String).setParent
        (ApiResource.new "q")).with_parent (ApiResource.new "b") =
      ((ApiResource.new "a").setParent (ApiResource.new "q"),
        .error (.AlreadySet "a" "parent")) :=
  ⟨(C7_already_set _ _).1 _ rfl, (C7_already_set _ _).2 _ rfl⟩

/-- C8: a node with no argument whose requirement names a relative that
exists fails with `Missing` carrying the relative's name (the parent's
name under `RequiredByParent`, the child's under `RequiredByChild`), not
the node's own name. -/
theorem C8_missing_relative (r : ApiResource String) (ha : r.arg = none) :
    (∀ pn, r.required_by = .Parent → r.parent = some pn →
        r.asPathComponent = .value (.error (.Missing pn.name))) ∧
    (∀ cn, r.required_by = .Child → r.child = some cn →
        r.asPathComponent = .value (.error (.Missing cn.name))) := by
  constructor
  · intro pn hreq hp
    unfold ApiResource.asPathComponent
    rw [ha, hreq, hp]
    rfl
  · intro cn hreq hc
    unfold ApiResource.asPathComponent
    rw [ha, hreq, hc]
    cases hp : r.parent with
    | none => rfl
    | some q => rfl

/-- Witness for C8_missing_relative: nodes named "n" with a parent (resp.
child) named "q" and requirement Parent (resp. Child) fail with
`Missing "q"`. -/
theorem C8_missing_relative_witness :
    ApiResource.asPathComponent
        (ApiResource.mk "n" (none : Option String) .Parent [] none
          (some (ApiResource.new "q")) 0) =
      .value (.error (.Missing "q")) ∧
    ApiResource.asPathComponent
        (ApiResource.mk "n" (none : Option String) .Child []
          (some (ApiResource.new "q")) none 0) =
      .value (.error (.Missing "q")) :=
  ⟨(C8_missing_relative
      (ApiResource.mk "n" (none : Option String) .Parent [] none
        (some (ApiResource.new "q")) 0) rfl).1 _ rfl rfl,
    (C8_missing_relative
      (ApiResource.mk "n" (none : Option String) .Child []
        (some (ApiResource.new "q")) none 0) rfl).2 _ rfl rfl⟩

/-- C10: a successful `with_child` stores the parent snapshot inside the
child BEFORE the child copy is stored in the parent copy, so the returned
composite satisfies `result.child().parent().child() == None`; the
embedding represents nodes as finite inductive values (mirroring Rust
owned `Box` copies), so no attach sequence can produce a cyclic or
self-referential node value. -/
theorem C10_acyclic (A B B2 R : ApiResource String)
    (h : A.with_child B = (B2, .ok R)) :
    R.child = some B2 ∧ B2.parent = some A ∧ A.child = none ∧
    Option.bind (Option.bind R.child ApiResource.parent) ApiResource.child = none := by
  cases A with
  | mk n a rq v ch p w =>
    cases B with
    | mk n2 a2 rq2 v2 ch2 p2 w2 =>
      cases ch with
      | some c0 =>
          simp [ApiResource.with_child, ApiResource.child] at h
      | none =>
        cases p2 with
        | some q0 =>
            simp [ApiResource.with_child, ApiResource.with_parent,
              ApiResource.child, ApiResource.parent] at h
        | none =>
            simp only [ApiResource.with_child, ApiResource.with_parent,
              ApiResource.child, ApiResource.parent, ApiResource.setChild,
              ApiResource.setParent, Prod.mk.injEq] at h
            obtain ⟨hB2, hR⟩ := h
            have hR2 := hR
            injection hR2 with hR3
            subst hB2
            subst hR3
            exact ⟨rfl, rfl, rfl, rfl⟩

/-- Witness for C10_acyclic at `A = new "a"`, `B = new "b"`. -/
theorem C10_acyclic_witness :
    Option.bind
      (Option.bind
        ((ApiResource.new "a" : ApiResource String).setChild
          ((ApiResource.new "b").setParent (ApiResource.new "a"))).child
        ApiResource.parent)
      ApiResource.child = none :=
  (C10_acyclic (ApiResource.new "a") (ApiResource.new "b")
    ((ApiResource.new "b").setParent (ApiResource.new "a"))
    ((ApiResource.new "a").setChild
      ((ApiResource.new "b").setParent (ApiResource.new "a"))) rfl).2.2.2

/-- C5: a chain of three argument-less `RequiredByNone` nodes linked
A→B→C via `with_child` composes successfully into the per-node segments
`"{name}/"` joined with `/` followed by a single pass of collapsing
`//` to `/`; for names "users", "42", "orders" the result is exactly
"users/42/orders/". -/
theorem C5_chain_compose :
    (∀ na nb nc : String, ∃ A, chain3 na nb nc = some A ∧
        A.compose = .value (.ok (collapseSlashes
          (String.intercalate "/" [na ++ "/", nb ++ "/", nc ++ "/"])))) ∧
    (∃ A, chain3 "users" "42" "orders" = some A ∧
        A.compose = .value (.ok "users/42/orders/")) := by
  constructor
  · intro na nb nc
    exact ⟨_, rfl, rfl⟩
  · exact ⟨_, rfl, rfl⟩

/-- C6: `compose` walks forward through child links and returns exactly the
error of the first node whose `as_path_component` fails; a successful
string result is only produced when no visited node fails. -/
theorem C6_first_error (r : ApiResource String) :
    (∀ e, r.firstFailure = some e → r.compose = .value (.error e)) ∧
    (∀ s, r.compose = .value (.ok s) → r.firstFailure = none) := by
  obtain ⟨h1, h2⟩ := composeSegs_spec r
  constructor
  · intro e he
    unfold ApiResource.compose
    rw [h1 e he]
  · intro s hs
    unfold ApiResource.compose at hs
    cases hcs : r.composeSegs with
    | panicked => rw [hcs] at hs; exact PanicOr.noConfusion hs
    | value res =>
      cases res with
      | error e =>
          rw [hcs] at hs
          injection hs with hs2
          exact Except.noConfusion hs2
      | ok segs => exact h2 segs hcs

/-- Witness for C6_first_error: in the chain "a" → "b" where "b" requires
an argument from its parent "q", composition aborts with exactly
`Missing "q"`, the failure of the second node. -/
theorem C6_first_error_witness :
    ApiResource.compose
        (ApiResource.mk "a" (none : Option String) .NoOne []
          (some (ApiResource.mk "b" none .Parent [] none
            (some (ApiResource.new "q")) 0)) none 0) =
      .value (.error (.Missing "q")) :=
  (C6_first_error
    (ApiResource.mk "a" (none : Option String) .NoOne []
      (some (ApiResource.mk "b" none .Parent [] none
        (some (ApiResource.new "q")) 0)) none 0)).1 (.Missing "q") rfl

/-- C2: the sub-path list of any reachable builder is sorted ascending by
weight (so `build`, which joins the retained entries in list order, joins
them in ascending weight order, and filtering the retained entries keeps
them sorted); an entry added by `with_path` carries the maximum
representable weight `f32::MAX`; every clamped explicit weight is at most
`f32::MAX`, strictly below it whenever the given weight is; and the spec's
example `new("example.com").with_path_weight("b", 2.0)
.with_path_weight("a", 1.0)` builds the path "/a/b" handed to the URI
constructor as ("https", "example.com", "/a/b?"). -/
theorem C2_weight_order :
    (∀ b : ApiRouteBuilder, Reachable b →
        List.Sorted weightLE b.sub_paths ∧
        List.Sorted weightLE (b.sub_paths.filter fun p => p.path ≠ "")) ∧
    (∀ (b : ApiRouteBuilder) (p : String),
        (⟨p, f32MAX⟩ : ApiRoutePath) ∈ (b.with_path p).sub_paths) ∧
    (∀ w : ℚ, clampWeight w ≤ f32MAX ∧ (w < f32MAX → clampWeight w < f32MAX)) ∧
    (((ApiRouteBuilder.new "example.com").with_path_weight "b" 2).with_path_weight
        "a" 1).parse_path = "/a/b" ∧
    (((ApiRouteBuilder.new "example.com").with_path_weight "b" 2).with_path_weight
        "a" 1).build = ("https", "example.com", "/a/b?") := by
  refine ⟨?_, ?_, ?_, by decide, by decide⟩
  · intro b hb
    have hs := reachable_sorted b hb
    exact ⟨hs, List.Pairwise.filter _ hs⟩
  · intro b p
    apply (List.perm_insertionSort weightLE _).mem_iff.mpr
    apply List.mem_append_right
    rw [show clampWeight (Option.getD none f32MAX) = f32MAX from clamp_max_eq]
    exact List.mem_singleton_self _
  · intro w
    exact ⟨clamp_le w, clamp_lt_max w⟩

/-- Witness for C2_weight_order: the freshly constructed builder for host
"h" has a weight-sorted sub-path list, and the explicit weight 1 clamps
strictly below the default weight `f32::MAX`. -/
theorem C2_weight_order_witness :
    List.Sorted weightLE (ApiRouteBuilder.new "h").sub_paths ∧
    clampWeight 1 < f32MAX :=
  ⟨(C2_weight_order.1 _ (Reachable.new "h")).1,
    (C2_weight_order.2.2.1 1).2 (by decide)⟩

/-- C9 counterexample: `new("example.com")` seeds the root entry "/" with
weight 0.0 — not a maximal sentinel (0 < f32::MAX) — and after
`with_path_weight("a", 1.0)` the root entry sorts FIRST, not last. -/
theorem C9_claim_false :
    (ApiRouteBuilder.new "example.com").sub_paths.map ApiRoutePath.weight = [(0 : ℚ)] ∧
    (0 : ℚ) < f32MAX ∧
    (((ApiRouteBuilder.new "example.com").with_path_weight "a" 1).sub_paths.map
        ApiRoutePath.path) = ["/", "a"] := by
  refine ⟨rfl, by decide, by decide⟩

/-- C9 (amended): `new(host)` seeds exactly one default path entry with
text "/" and weight 0.0 — a minimal sentinel lying strictly below the
clamp range `[0.1, f32::MAX]` of every inserted weight — so the root entry
sorts FIRST relative to explicitly weighted entries added afterwards: in
every reachable builder the head of the sub-path list is the root entry. -/
theorem C9_root_seed :
    (∀ host, (ApiRouteBuilder.new host).sub_paths = [⟨"/", 0⟩]) ∧
    (∀ w, f32TENTH ≤ clampWeight w) ∧
    (0 : ℚ) < f32TENTH ∧
    (∀ b : ApiRouteBuilder, Reachable b → b.sub_paths.head? = some ⟨"/", 0⟩) :=
  ⟨fun _ => rfl, clamp_ge, by decide, reachable_head⟩

/-- Witness for C9_root_seed: after inserting "a" with weight 1 the root
entry "/" is still the head of the sub-path list. -/
theorem C9_root_seed_witness :
    ((ApiRouteBuilder.new "h").with_path_weight "a" 1).sub_paths.head? =
      some ⟨"/", 0⟩ :=
  C9_root_seed.2.2.2 _ (Reachable.pathWeight _ "a" 1 (Reachable.new "h"))
